import Mathlib

/-!
Shallow embedding of the epidemic membership reactor of `artillery`
(`artillery-core/src/epidemic/state.rs`), together with the parts of the
member table it calls into.  Pure functions of the source are translated
as Lean functions; the reactor's mutable fields are threaded explicitly
as a `ReactorState` record; channel sends (`request_tx`, `event_tx`) are
returned as lists in emission order; fallible operations (the `unwrap`
on `member.remote_host()` in the `AckHost` branch) return `Option`.
Wall-clock instants and socket addresses are abstracted to `Nat`, which
the reactor logic only compares.
-/

/-- Abstract model of `std::net::SocketAddr`: the reactor only tests
addresses for equality, so any type with decidable equality serves. -/
abbrev Addr := Nat

/-- Abstract model of `uuid::Uuid` (a 128-bit identity; only equality is
observed). -/
abbrev Uuid := Nat

/-- Abstract model of `chrono::DateTime<Utc>` wall-clock instants: the
reactor only compares and adds durations to them. -/
abbrev Timestamp := Nat

/-- Member liveness state, from `ArtilleryMemberState` (member.rs). -/
inductive ArtilleryMemberState
  | Alive
  | Suspect
  | Down
  | Left
  deriving DecidableEq

/-- Modelled from the spec: `ArtilleryMember` lives in
`epidemic/member.rs`, which is not under `src/`.  Section 3 lists its
attributes: `host_key` (UUID identity), `remote_host` (optional UDP
address), `incarnation` (non-decreasing integer), `state`, and
`last_state_change` (wall clock, used only for tie-break/diagnostics and
never observed by the code embedded here, so omitted). -/
structure ArtilleryMember where
  host_key : Uuid
  remote_host : Option Addr
  incarnation : Nat
  state : ArtilleryMemberState
  deriving DecidableEq

/-- Modelled from the spec: `ArtilleryStateChange` lives in
`epidemic/member.rs`, not under `src/`.  Section 3: a wrapper pairing a
Member snapshot with the time it entered that state locally; only the
member snapshot is observed by the reactor code, so the timestamp is
omitted. -/
structure ArtilleryStateChange where
  member : ArtilleryMember
  deriving DecidableEq

/-- `ArtilleryStateChange::new` (member.rs, modelled from the spec). -/
def ArtilleryStateChange.new (m : ArtilleryMember) : ArtilleryStateChange :=
  ⟨m⟩

/-- `ArtilleryStateChange::update` (member.rs, modelled from the spec):
replace the carried member snapshot. -/
def ArtilleryStateChange.update (sc : ArtilleryStateChange) (m : ArtilleryMember) : ArtilleryStateChange :=
  { sc with member := m }

/-- The wire request variants, from `enum Request` (state.rs). -/
inductive Request
  | Ping
  | Ack
  | PingRequest (addr : Addr)
  | AckHost (member : ArtilleryMember)
  deriving DecidableEq

/-- The wire record, from `struct ArtilleryMessage` (state.rs).  The
cluster key is an opaque byte string, modelled as `List Nat`. -/
structure ArtilleryMessage where
  sender : Uuid
  cluster_key : List Nat
  request : Request
  state_changes : List ArtilleryStateChange
  deriving DecidableEq

/-- An outbound request aimed at a peer, from `struct TargetedRequest`
(state.rs). -/
structure TargetedRequest where
  request : Request
  target : Addr
  deriving DecidableEq

/-- Membership events published to the embedder, from
`enum ArtilleryMemberEvent` (state.rs).  The `available_nodes` snapshot
paired with each event by `send_member_event` is not modelled. -/
inductive ArtilleryMemberEvent
  | MemberJoined (m : ArtilleryMember)
  | MemberWentUp (m : ArtilleryMember)
  | MemberSuspectedDown (m : ArtilleryMember)
  | MemberWentDown (m : ArtilleryMember)
  | MemberLeft (m : ArtilleryMember)
  deriving DecidableEq

/-- One entry of `pending_responses`: the source uses the tuple
`(DateTime<Utc>, SocketAddr, Vec<ArtilleryStateChange>)` (state.rs,
field of `ArtilleryState`). -/
structure PendingResponse where
  deadline : Timestamp
  target : Addr
  state_changes : List ArtilleryStateChange
  deriving DecidableEq

/-- Modelled from the spec: the member table `ArtilleryMemberList`
(`epidemic/membership.rs`) is not under `src/`; its operations are
modelled from section 4.1.  `entries` holds every member (self
included, identified by `self_key`); per section 3 there is at most one
entry per `host_key`. -/
structure ArtilleryMemberList where
  self_key : Uuid
  entries : List ArtilleryMember
  deriving DecidableEq

/-- Look a member up by host key (first match in table order). -/
def ArtilleryMemberList.lookup (ml : ArtilleryMemberList) (key : Uuid) : Option ArtilleryMember :=
  ml.entries.find? (fun m => m.host_key == key)

/-- Modelled from the spec: `has_member` of membership.rs — whether some
entry has the given remote address. -/
def ArtilleryMemberList.has_member (ml : ArtilleryMemberList) (addr : Addr) : Bool :=
  ml.entries.any (fun m => m.remote_host == some addr)

/-- Replace the entries whose host key matches `key` by `m`. -/
def replaceByKey (entries : List ArtilleryMember) (key : Uuid) (m : ArtilleryMember) : List ArtilleryMember :=
  entries.map (fun x => if x.host_key == key then m else x)

/-- State precedence at equal incarnation, from section 4.1:
Left > Down > Suspect > Alive. -/
def statePrecedence : ArtilleryMemberState → Nat
  | ArtilleryMemberState.Alive => 0
  | ArtilleryMemberState.Suspect => 1
  | ArtilleryMemberState.Down => 2
  | ArtilleryMemberState.Left => 3

/-- Modelled from the spec: the merge rule of
`ArtilleryMemberList::apply_state_changes` (membership.rs, not under
`src/`) for one incoming record, per section 4.1: unknown host key is
inserted (substituting the sender address when the record carries no
address) and classified newly seen; higher incarnation overwrites state
and incarnation; equal incarnation overwrites only on strictly higher
precedence; lower incarnation is ignored; a record asserting self is
non-Alive bumps self's incarnation and re-emits self as an Alive change
(classified changed, which is the only path by which state.rs enqueues
the refuting change). -/
def ArtilleryMemberList.applyChange (ml : ArtilleryMemberList) (from_addr : Addr) (sc : ArtilleryStateChange) : ArtilleryMemberList × List ArtilleryMember × List ArtilleryMember :=
  let m := sc.member
  if m.host_key = ml.self_key then
    match ml.lookup ml.self_key with
    | none => (ml, [], [])
    | some selfm =>
      if m.state = ArtilleryMemberState.Alive then (ml, [], [])
      else
        let selfm' := { selfm with incarnation := selfm.incarnation + 1, state := ArtilleryMemberState.Alive }
        ({ ml with entries := replaceByKey ml.entries ml.self_key selfm' }, [], [selfm'])
  else
    match ml.lookup m.host_key with
    | none =>
      let m' := match m.remote_host with
        | none => { m with remote_host := some from_addr }
        | some _ => m
      ({ ml with entries := ml.entries ++ [m'] }, [m'], [])
    | some localm =>
      if localm.incarnation < m.incarnation then
        let localm' := { localm with incarnation := m.incarnation, state := m.state }
        ({ ml with entries := replaceByKey ml.entries m.host_key localm' }, [], [localm'])
      else if localm.incarnation = m.incarnation ∧ statePrecedence localm.state < statePrecedence m.state then
        let localm' := { localm with state := m.state }
        ({ ml with entries := replaceByKey ml.entries m.host_key localm' }, [], [localm'])
      else (ml, [], [])

/-- Modelled from the spec: `ArtilleryMemberList::apply_state_changes`
(membership.rs, not under `src/`) folds the merge rule over the incoming
records, returning the table plus the newly seen and changed members in
processing order. -/
def ArtilleryMemberList.apply_state_changes : ArtilleryMemberList → List ArtilleryStateChange → Addr → ArtilleryMemberList × List ArtilleryMember × List ArtilleryMember
  | ml, [], _ => (ml, [], [])
  | ml, sc :: rest, from_addr =>
    let r1 := ml.applyChange from_addr sc
    let r2 := r1.1.apply_state_changes rest from_addr
    (r2.1, r1.2.1 ++ r2.2.1, r1.2.2 ++ r2.2.2)

/-- Modelled from the spec: `mark_node_alive` of membership.rs (not
under `src/`), per section 4.1 `mark_alive`: promote Suspect to Alive
with no incarnation bump; return the updated member only when a
transition occurred. -/
def ArtilleryMemberList.mark_node_alive (ml : ArtilleryMemberList) (addr : Addr) : Option (ArtilleryMember × ArtilleryMemberList) :=
  match ml.entries.find? (fun m => m.remote_host == some addr) with
  | none => none
  | some m =>
    if m.state = ArtilleryMemberState.Suspect then
      let m' := { m with state := ArtilleryMemberState.Alive }
      some (m', { ml with entries := replaceByKey ml.entries m.host_key m' })
    else none

/-- One member's part of the timeout sweep (helper for
`time_out_nodes`): an expired Alive member becomes Suspect, an expired
Suspect member becomes Down, anything else is untouched. -/
def timeOutStep (expired_hosts : List Addr) (m : ArtilleryMember) : ArtilleryMember × List ArtilleryMember × List ArtilleryMember :=
  match m.remote_host with
  | none => (m, [], [])
  | some a =>
    if expired_hosts.contains a then
      match m.state with
      | ArtilleryMemberState.Alive =>
        let m' := { m with state := ArtilleryMemberState.Suspect }
        (m', [m'], [])
      | ArtilleryMemberState.Suspect =>
        let m' := { m with state := ArtilleryMemberState.Down }
        (m', [], [m'])
      | _ => (m, [], [])
    else (m, [], [])

/-- Sweep every entry, collecting the new table plus the suspect and
down lists in table order. -/
def timeOutEntries (expired_hosts : List Addr) : List ArtilleryMember → List ArtilleryMember × List ArtilleryMember × List ArtilleryMember
  | [] => ([], [], [])
  | m :: rest =>
    let r := timeOutStep expired_hosts m
    let rr := timeOutEntries expired_hosts rest
    (r.1 :: rr.1, r.2.1 ++ rr.2.1, r.2.2 ++ rr.2.2)

/-- Modelled from the spec: `time_out_nodes` of membership.rs (not
under `src/`), per section 4.1 `time_out`: for each expired address,
Alive goes to Suspect (suspect list) and Suspect goes to Down (down
list). -/
def ArtilleryMemberList.time_out_nodes (ml : ArtilleryMemberList) (expired_hosts : List Addr) : ArtilleryMemberList × List ArtilleryMember × List ArtilleryMember :=
  let r := timeOutEntries expired_hosts ml.entries
  ({ ml with entries := r.1 }, r.2.1, r.2.2)

/-- The reactor's mutable fields touched by the embedded operations
(`struct ArtilleryState`, state.rs).  The `wait_list` HashMap is
modelled as an association list; the socket, channels and running flag
are externalized. -/
structure ReactorState where
  members : ArtilleryMemberList
  seed_queue : List Addr
  pending_responses : List PendingResponse
  state_changes : List ArtilleryStateChange
  wait_list : List (Addr × List Addr)
  deriving DecidableEq

/-- `add_to_wait_list` (state.rs): push `notify_addr` onto the entry of
`wait_addr`, creating the entry if absent. -/
def add_to_wait_list (wait_list : List (Addr × List Addr)) (wait_addr : Addr) (notify_addr : Addr) : List (Addr × List Addr) :=
  if wait_list.any (fun p => p.1 == wait_addr) then
    wait_list.map (fun p => if p.1 == wait_addr then (p.1, p.2 ++ [notify_addr]) else p)
  else
    wait_list ++ [(wait_addr, [notify_addr])]

/-- The relays stored for an address (empty when the key is absent,
matching `wait_list.get_mut` returning `None`). -/
def lookup_wait_list (wait_list : List (Addr × List Addr)) (addr : Addr) : List Addr :=
  ((wait_list.find? (fun p => p.1 == addr)).map (fun p => p.2)).getD []

/-- Clearing the entry of `addr` in place (`wait_list.clear()` inside
`mark_node_alive`): the key stays present with an empty list. -/
def clear_wait_list (wait_list : List (Addr × List Addr)) (addr : Addr) : List (Addr × List Addr) :=
  wait_list.map (fun p => if p.1 == addr then (p.1, []) else p)

/-- `remove_potential_seed` (state.rs): drop every seed equal to the
responding address. -/
def remove_potential_seed (seed_queue : List Addr) (src_addr : Addr) : List Addr :=
  seed_queue.filter (fun a => !(a == src_addr))

/-- `determine_member_event` (state.rs): the event matching a changed
member's new state. -/
def determine_member_event (member : ArtilleryMember) : ArtilleryMemberEvent :=
  match member.state with
  | ArtilleryMemberState.Alive => ArtilleryMemberEvent.MemberWentUp member
  | ArtilleryMemberState.Suspect => ArtilleryMemberEvent.MemberSuspectedDown member
  | ArtilleryMemberState.Down => ArtilleryMemberEvent.MemberWentDown member
  | ArtilleryMemberState.Left => ArtilleryMemberEvent.MemberLeft member

/-- Inner loop of `enqueue_state_change` (state.rs): update the first
digest entry whose host key matches `m`, or report that none matches. -/
def updateFirstChange (m : ArtilleryMember) : List ArtilleryStateChange → Option (List ArtilleryStateChange)
  | [] => none
  | sc :: rest =>
    if sc.member.host_key = m.host_key then some (sc.update m :: rest)
    else (updateFirstChange m rest).map (fun l => sc :: l)

/-- `enqueue_state_change` (state.rs).  Note the translated control
flow is the source's: after updating a matching digest entry in place
the source executes `return`, leaving the whole function — the members
after the first one that hits the update path are never enqueued.  Only
when a member has no matching entry is it appended and the loop
continued. -/
def enqueue_state_change : List ArtilleryStateChange → List ArtilleryMember → List ArtilleryStateChange
  | state_changes, [] => state_changes
  | state_changes, m :: rest =>
    match updateFirstChange m state_changes with
    | some updated => updated
    | none => enqueue_state_change (state_changes ++ [ArtilleryStateChange.new m]) rest

/-- The truncation loop of `build_message` (state.rs).  `mkMsg i` is
the record carrying the first `i` state changes; `encLen` abstracts
`serde_json::to_string(..).len()` (the serialization format is external
to the repository); `fuel` counts the loop iterations left after the
current one.  Each iteration rebuilds the record and returns it as soon
as its encoding reaches `network_mtu`; when the iterations are spent the
freshly built record (the full digest) is returned either way, exactly
as the source's final `message`. -/
def buildLoop (encLen : ArtilleryMessage → Nat) (network_mtu : Nat) (mkMsg : Nat → ArtilleryMessage) : Nat → Nat → ArtilleryMessage
  | i, 0 => mkMsg i
  | i, Nat.succ f =>
    if network_mtu ≤ encLen (mkMsg i) then mkMsg i
    else buildLoop encLen network_mtu mkMsg (i + 1) f

/-- `build_message` (state.rs): iterate `i` over `0..=N`, returning the
record with the first `i` changes the moment its encoding is at least
`network_mtu`, and the full record when every iteration stayed below. -/
def build_message (sender : Uuid) (cluster_key : List Nat) (request : Request) (state_changes : List ArtilleryStateChange) (network_mtu : Nat) (encLen : ArtilleryMessage → Nat) : ArtilleryMessage :=
  buildLoop encLen network_mtu (fun i => ⟨sender, cluster_key, request, state_changes.take i⟩) 0 state_changes.length

/-- Digest half of `ack_response` (state.rs): for each pending entry in
order whose target is the acked address, drop from the outgoing digest
every change whose host key occurs in that entry's snapshot. -/
def ackPruneDigest (src_addr : Addr) : List PendingResponse → List ArtilleryStateChange → List ArtilleryStateChange
  | [], digest => digest
  | e :: rest, digest =>
    if e.target = src_addr then
      ackPruneDigest src_addr rest (digest.filter (fun os => !(e.state_changes.any (fun ic => ic.member.host_key == os.member.host_key))))
    else ackPruneDigest src_addr rest digest

/-- `ack_response` (state.rs) on the two fields it touches: the loop
collects the matching entries into `to_remove` while pruning the digest,
and the final `retain` keeps exactly the pending entries equal to no
collected one. -/
def ack_response (src_addr : Addr) (pending : List PendingResponse) (digest : List ArtilleryStateChange) : List PendingResponse × List ArtilleryStateChange :=
  let to_remove := pending.filter (fun e => e.target == src_addr)
  (pending.filter (fun op => !(to_remove.any (fun ip => ip == op))), ackPruneDigest src_addr pending digest)

/-- `ack_response` lifted to the reactor state. -/
def ack_response_state (src_addr : Addr) (s : ReactorState) : ReactorState :=
  { s with pending_responses := (ack_response src_addr s.pending_responses s.state_changes).1,
           state_changes := (ack_response src_addr s.pending_responses s.state_changes).2 }

/-- `mark_node_alive` (state.rs): when the table reports a Suspect to
Alive transition, emit one `React(AckHost(member))` per stored relay in
stored order, clear the waiting relays, enqueue the member's change and
publish `MemberWentUp`. -/
def mark_node_alive (src_addr : Addr) (s : ReactorState) : ReactorState × List ArtilleryMemberEvent × List TargetedRequest :=
  match s.members.mark_node_alive src_addr with
  | none => (s, [], [])
  | some r =>
    ({ s with members := r.2,
              wait_list := clear_wait_list s.wait_list src_addr,
              state_changes := enqueue_state_change s.state_changes [r.1] },
     [ArtilleryMemberEvent.MemberWentUp r.1],
     (lookup_wait_list s.wait_list src_addr).map (fun remote => ⟨Request.AckHost r.1, remote⟩))

/-- `ensure_node_is_member` (state.rs): a responding address not yet in
the table is inserted as a fresh Alive member (incarnation 0), its
change enqueued, and `MemberJoined` published. -/
def ensure_node_is_member (src_addr : Addr) (sender : Uuid) (s : ReactorState) : ReactorState × List ArtilleryMemberEvent :=
  if s.members.has_member src_addr then (s, [])
  else
    let new_member : ArtilleryMember := ⟨sender, some src_addr, 0, ArtilleryMemberState.Alive⟩
    ({ s with members := { s.members with entries := s.members.entries ++ [new_member] },
              state_changes := enqueue_state_change s.state_changes [new_member] },
     [ArtilleryMemberEvent.MemberJoined new_member])

/-- `apply_state_changes` (state.rs): merge the remote changes through
the member table, enqueue the new then the changed members, and publish
`MemberJoined` for each new member followed by the per-state event for
each changed member. -/
def apply_state_changes (state_changes : List ArtilleryStateChange) (from_addr : Addr) (s : ReactorState) : ReactorState × List ArtilleryMemberEvent :=
  let r := s.members.apply_state_changes state_changes from_addr
  ({ s with members := r.1,
            state_changes := enqueue_state_change (enqueue_state_change s.state_changes r.2.1) r.2.2 },
   r.2.1.map ArtilleryMemberEvent.MemberJoined ++ r.2.2.map determine_member_event)

/-- The processing common to every matching-key inbound record
(`respond_to_message`, before the request dispatch): apply the carried
state changes, drop the sender from the seed queue, and ensure the
sender is a member. -/
def respond_pre (src_addr : Addr) (message : ArtilleryMessage) (s : ReactorState) : ReactorState × List ArtilleryMemberEvent :=
  let r1 := apply_state_changes message.state_changes src_addr s
  let s2 := { r1.1 with seed_queue := remove_potential_seed r1.1.seed_queue src_addr }
  let r2 := ensure_node_is_member src_addr message.sender s2
  (r2.1, r1.2 ++ r2.2)

/-- `respond_to_message` (state.rs).  A mismatched cluster key is
dropped with a log and nothing else.  Otherwise the common processing
runs and the request dispatches: Ping replies Ack to the sender; Ack
runs `ack_response` then `mark_node_alive` on the sender with no reply;
PingRequest(dest) appends the sender to the wait list of `dest` and
replies Ping toward `dest`; AckHost(member) runs `ack_response` then
`mark_node_alive` on `member.remote_host().unwrap()` — `none` models
that unwrap panicking when the carried member has no address. -/
def respond_to_message (cluster_key : List Nat) (src_addr : Addr) (message : ArtilleryMessage) (s : ReactorState) : Option (ReactorState × List ArtilleryMemberEvent × List TargetedRequest) :=
  if message.cluster_key ≠ cluster_key then some (s, [], [])
  else
    let pre := respond_pre src_addr message s
    match message.request with
    | Request.Ping => some (pre.1, pre.2, [⟨Request.Ack, src_addr⟩])
    | Request.Ack =>
      let r := mark_node_alive src_addr (ack_response_state src_addr pre.1)
      some (r.1, pre.2 ++ r.2.1, r.2.2)
    | Request.PingRequest dest_addr =>
      some ({ pre.1 with wait_list := add_to_wait_list pre.1.wait_list dest_addr src_addr }, pre.2, [⟨Request.Ping, dest_addr⟩])
    | Request.AckHost member =>
      match member.remote_host with
      | none => none
      | some a =>
        let r := mark_node_alive a (ack_response_state a pre.1)
        some (r.1, pre.2 ++ r.2.1, r.2.2)

/-- `process_request` (state.rs): build the outbound record from the
current digest and, exactly when the request is Ping, append one
pending-response entry whose deadline is `now + ping_timeout`, whose
target is the request's target, and whose snapshot is the state changes
placed in the record.  The datagram transmission and the
`encoded.len() < network_mtu` assertion that follow are external
effects; the built record is returned. -/
def process_request (now ping_timeout : Timestamp) (host_key : Uuid) (cluster_key : List Nat) (network_mtu : Nat) (encLen : ArtilleryMessage → Nat) (request : TargetedRequest) (s : ReactorState) : ReactorState × ArtilleryMessage :=
  let timeout := now + ping_timeout
  let should_add_pending := request.request == Request.Ping
  let message := build_message host_key cluster_key request.request s.state_changes network_mtu encLen
  if should_add_pending then
    ({ s with pending_responses := s.pending_responses ++ [⟨timeout, request.target, message.state_changes⟩] }, message)
  else (s, message)

/-- `send_ping_requests` (state.rs): one `React(PingRequest(target))`
per relay; the relay choice (`hosts_for_indirect_ping`, a uniform
random draw in membership.rs) is abstracted as a function of the
target's address. -/
def send_ping_requests (hostsForIndirectPing : Addr → List Addr) (target : ArtilleryMember) : List TargetedRequest :=
  match target.remote_host with
  | none => []
  | some target_host => (hostsForIndirectPing target_host).map (fun relay => ⟨Request.PingRequest target_host, relay⟩)

/-- `prune_timed_out_responses` (state.rs).  The partition keeps the
source's predicate verbatim: `remaining` is the side satisfying
`deadline < now` and the other side is treated as expired.  The expired
targets go through the table's timeout sweep; the down then the suspect
members are enqueued; each suspect member yields its indirect-probe
requests and a `MemberSuspectedDown` event, each down member a
`MemberWentDown` event. -/
def prune_timed_out_responses (hostsForIndirectPing : Addr → List Addr) (now : Timestamp) (s : ReactorState) : ReactorState × List ArtilleryMemberEvent × List TargetedRequest :=
  let part := s.pending_responses.partition (fun e => e.deadline < now)
  let expired_hosts := part.2.map (fun e => e.target)
  let r := s.members.time_out_nodes expired_hosts
  let digest := enqueue_state_change (enqueue_state_change s.state_changes r.2.2) r.2.1
  ({ s with pending_responses := part.1, members := r.1, state_changes := digest },
   r.2.1.map ArtilleryMemberEvent.MemberSuspectedDown ++ r.2.2.map ArtilleryMemberEvent.MemberWentDown,
   (r.2.1.map (send_ping_requests hostsForIndirectPing)).flatten)

/-- A pending response whose deadline (5) has already lapsed at the
probe time (10) used below. -/
def c1_lapsed : PendingResponse := ⟨5, 1, []⟩

/-- A pending response whose deadline (15) is still in the future at
the probe time (10) used below. -/
def c1_future : PendingResponse := ⟨15, 2, []⟩

/-- A reactor state holding exactly the two pending responses above. -/
def c1_state : ReactorState := ⟨⟨0, []⟩, [], [c1_lapsed, c1_future], [], []⟩

/-- C1: the partition predicate of `prune_timed_out_responses` is
reversed.  At time 10 the entry with deadline 5 (lapsed, so expired per
the claim) is the one retained in `pending_responses`, and the entry
with deadline 15 (strictly in the future) is the one dropped and fed to
the timeout step. -/
theorem prune_retains_lapsed_entry :
    (prune_timed_out_responses (fun _ => []) 10 c1_state).1.pending_responses = [c1_lapsed]
    ∧ c1_lapsed.deadline ≤ 10 ∧ 10 < c1_future.deadline := by
  decide

/-- A concrete encoding-length function a textual codec could realize:
10 bytes of fixed overhead plus 5 per digest entry. -/
def c2_encLen (m : ArtilleryMessage) : Nat := 10 + 5 * m.state_changes.length

/-- A candidate digest with one entry. -/
def c2_digest : List ArtilleryStateChange :=
  [ArtilleryStateChange.new ⟨7, some 3, 0, ArtilleryMemberState.Alive⟩]

/-- C2: with the empty-digest record encoding to 10 ≤ mtu = 12,
`build_message` returns the record carrying the full one-entry digest,
whose encoding (15) is not strictly below the mtu — rather than the
largest fitting prefix (the empty one).  The
`encoded.len() < network_mtu` assertion in `process_request` fails on
this record. -/
theorem build_message_exceeds_mtu :
    c2_encLen ⟨1, [0], Request.Ping, []⟩ ≤ 12 ∧
    (build_message 1 [0] Request.Ping c2_digest 12 c2_encLen).state_changes = c2_digest ∧
    12 ≤ c2_encLen (build_message 1 [0] Request.Ping c2_digest 12 c2_encLen) := by
  decide

/-- A member already present in the digest below. -/
def c3_m1 : ArtilleryMember := ⟨1, some 10, 0, ArtilleryMemberState.Alive⟩

/-- A later record about the same member (host key 1). -/
def c3_m1b : ArtilleryMember := ⟨1, some 10, 1, ArtilleryMemberState.Suspect⟩

/-- A member (host key 2) with no digest entry yet. -/
def c3_m2 : ArtilleryMember := ⟨2, some 20, 0, ArtilleryMemberState.Down⟩

/-- C3: `enqueue_state_change` on the list `[c3_m1b, c3_m2]` against a
digest already holding host key 1 updates that entry in place and then
returns from the whole function: no entry for host key 2 is ever
enqueued, though the claim requires one per member of the list. -/
theorem enqueue_state_change_drops_later_members :
    enqueue_state_change [ArtilleryStateChange.new c3_m1] [c3_m1b, c3_m2]
      = [ArtilleryStateChange.new c3_m1b] ∧
    ((enqueue_state_change [ArtilleryStateChange.new c3_m1] [c3_m1b, c3_m2]).any
        (fun sc => sc.member.host_key == c3_m2.host_key)) = false := by
  decide

/-- C5: an inbound record whose cluster key differs from the configured
one leaves the reactor state untouched and produces no event and no
outbound request. -/
theorem respond_to_message_mismatch (cluster_key : List Nat) (src_addr : Addr) (message : ArtilleryMessage) (s : ReactorState) (h : message.cluster_key ≠ cluster_key) :
    respond_to_message cluster_key src_addr message s = some (s, [], []) := by
  simp [respond_to_message, h]

/-- A record keyed for a different cluster. -/
def c5_msg : ArtilleryMessage := ⟨9, [1], Request.Ping, []⟩

/-- An empty reactor state for the mismatch witness. -/
def c5_state : ReactorState := ⟨⟨0, []⟩, [], [], [], []⟩

/-- Witness for C5 at a concrete mismatched key. -/
theorem respond_to_message_mismatch_witness :
    respond_to_message [0] 3 c5_msg c5_state = some (c5_state, [], []) :=
  respond_to_message_mismatch [0] 3 c5_msg c5_state (by decide)

/-- Helper: the digest pruning of `ack_response` only removes entries,
so its result is contained in its input. -/
theorem ackPruneDigest_subset (src_addr : Addr) (pending : List PendingResponse) :
    ∀ digest, ∀ os ∈ ackPruneDigest src_addr pending digest, os ∈ digest := by
  induction pending with
  | nil =>
    intro digest os h
    simpa [ackPruneDigest] using h
  | cons p rest ih =>
    intro digest os h
    by_cases hp : p.target = src_addr
    · rw [ackPruneDigest, if_pos hp] at h
      exact (List.mem_filter.mp (ih _ os h)).1
    · rw [ackPruneDigest, if_neg hp] at h
      exact ih digest os h

/-- Helper: after the digest pruning of `ack_response`, no surviving
digest entry shares a host key with any snapshot of a pending entry for
the acked address. -/
theorem ackPruneDigest_no_acked_key (src_addr : Addr) (pending : List PendingResponse) :
    ∀ digest, ∀ os ∈ ackPruneDigest src_addr pending digest, ∀ e ∈ pending, e.target = src_addr →
      ∀ ic ∈ e.state_changes, ic.member.host_key ≠ os.member.host_key := by
  induction pending with
  | nil =>
    intro digest os hos e he
    cases he
  | cons p rest ih =>
    intro digest os hos e he hsrc ic hic
    by_cases hp : p.target = src_addr
    · rw [ackPruneDigest, if_pos hp] at hos
      rcases List.mem_cons.mp he with rfl | he'
      · have hf := ackPruneDigest_subset src_addr rest _ os hos
        have h2 := (List.mem_filter.mp hf).2
        simp only [Bool.not_eq_true', List.any_eq_false, beq_iff_eq] at h2
        exact h2 ic hic
      · exact ih _ os hos e he' hsrc ic hic
    · rw [ackPruneDigest, if_neg hp] at hos
      rcases List.mem_cons.mp he with rfl | he'
      · exact absurd hsrc hp
      · exact ih digest os hos e he' hsrc ic hic

/-- C4: `ack_response` removes exactly the pending entries whose target
is the acked address (entries for other targets survive), and no
outgoing-digest entry survives whose host key occurs in the snapshot of
any removed entry. -/
theorem ack_response_spec (src_addr : Addr) (pending : List PendingResponse) (digest : List ArtilleryStateChange) :
    (∀ e, e ∈ (ack_response src_addr pending digest).1 ↔ e ∈ pending ∧ e.target ≠ src_addr) ∧
    (∀ os ∈ (ack_response src_addr pending digest).2, ∀ e ∈ pending, e.target = src_addr →
      ∀ ic ∈ e.state_changes, ic.member.host_key ≠ os.member.host_key) := by
  constructor
  · intro e
    simp only [ack_response, List.mem_filter, Bool.not_eq_true', List.any_eq_false,
      beq_iff_eq]
    constructor
    · rintro ⟨hmem, hno⟩
      refine ⟨hmem, fun hsrc => ?_⟩
      exact hno e ⟨hmem, hsrc⟩ rfl
    · rintro ⟨hmem, hne⟩
      refine ⟨hmem, fun ip hip hipe => ?_⟩
      exact hne (hipe ▸ hip.2)
  · exact ackPruneDigest_no_acked_key src_addr pending digest

/-- A pending entry for the acked address 1 carrying a snapshot. -/
def c4_acked : PendingResponse :=
  ⟨5, 1, [ArtilleryStateChange.new ⟨9, some 1, 0, ArtilleryMemberState.Alive⟩]⟩

/-- A pending entry for another address. -/
def c4_other : PendingResponse := ⟨6, 2, []⟩

/-- Witness for C4: the entry targeting address 2 survives an Ack from
address 1. -/
theorem ack_response_spec_witness :
    c4_other ∈ (ack_response 1 [c4_acked, c4_other] []).1 :=
  ((ack_response_spec 1 [c4_acked, c4_other] []).1 c4_other).mpr ⟨by decide, by decide⟩

/-- C6: the request dispatch of `respond_to_message` for a matching
cluster key.  Ping enqueues one Ack reply to the sender; Ack runs
`ack_response` then `mark_node_alive` on the sender and enqueues only
what `mark_node_alive` emits (no reply); PingRequest(dest) appends the
sender to the wait list of dest and enqueues one Ping reply toward
dest; AckHost(member) with an address runs `ack_response` then
`mark_node_alive` on that address with no reply. -/
theorem respond_to_message_dispatch (cluster_key : List Nat) (src_addr : Addr) (message : ArtilleryMessage) (s : ReactorState) (hkey : message.cluster_key = cluster_key) :
    (message.request = Request.Ping →
      respond_to_message cluster_key src_addr message s =
        some ((respond_pre src_addr message s).1, (respond_pre src_addr message s).2,
              [⟨Request.Ack, src_addr⟩])) ∧
    (message.request = Request.Ack →
      respond_to_message cluster_key src_addr message s =
        some ((mark_node_alive src_addr (ack_response_state src_addr (respond_pre src_addr message s).1)).1,
              (respond_pre src_addr message s).2 ++
                (mark_node_alive src_addr (ack_response_state src_addr (respond_pre src_addr message s).1)).2.1,
              (mark_node_alive src_addr (ack_response_state src_addr (respond_pre src_addr message s).1)).2.2)) ∧
    (∀ dest_addr, message.request = Request.PingRequest dest_addr →
      respond_to_message cluster_key src_addr message s =
        some ({ (respond_pre src_addr message s).1 with
                  wait_list := add_to_wait_list (respond_pre src_addr message s).1.wait_list dest_addr src_addr },
              (respond_pre src_addr message s).2, [⟨Request.Ping, dest_addr⟩])) ∧
    (∀ member a, message.request = Request.AckHost member → member.remote_host = some a →
      respond_to_message cluster_key src_addr message s =
        some ((mark_node_alive a (ack_response_state a (respond_pre src_addr message s).1)).1,
              (respond_pre src_addr message s).2 ++
                (mark_node_alive a (ack_response_state a (respond_pre src_addr message s).1)).2.1,
              (mark_node_alive a (ack_response_state a (respond_pre src_addr message s).1)).2.2)) := by
  refine ⟨fun h => ?_, fun h => ?_, fun dest_addr h => ?_, fun member a h ha => ?_⟩
  · simp [respond_to_message, hkey, h]
  · simp [respond_to_message, hkey, h]
  · simp [respond_to_message, hkey, h]
  · simp [respond_to_message, hkey, h, ha]

/-- A matching-key Ping record for the dispatch witness. -/
def c6_msg : ArtilleryMessage := ⟨9, [0], Request.Ping, []⟩

/-- An empty reactor state for the dispatch witness. -/
def c6_state : ReactorState := ⟨⟨0, []⟩, [], [], [], []⟩

/-- Witness for C6: the Ping branch at a concrete record and state. -/
theorem respond_to_message_dispatch_witness :
    respond_to_message [0] 3 c6_msg c6_state =
      some ((respond_pre 3 c6_msg c6_state).1, (respond_pre 3 c6_msg c6_state).2,
            [⟨Request.Ack, 3⟩]) :=
  (respond_to_message_dispatch [0] 3 c6_msg c6_state rfl).1 rfl

/-- C7: `process_request` transmits the record built from the current
digest, and appends exactly one pending-response entry — deadline
`now + ping_timeout`, target the request's target, snapshot the state
changes placed in the transmitted record — precisely when the request
is Ping; any other request leaves the state unchanged. -/
theorem process_request_pending_spec (now ping_timeout : Timestamp) (host_key : Uuid) (cluster_key : List Nat) (network_mtu : Nat) (encLen : ArtilleryMessage → Nat) (request : TargetedRequest) (s : ReactorState) :
    (process_request now ping_timeout host_key cluster_key network_mtu encLen request s).2 =
      build_message host_key cluster_key request.request s.state_changes network_mtu encLen ∧
    (request.request = Request.Ping →
      (process_request now ping_timeout host_key cluster_key network_mtu encLen request s).1 =
        { s with pending_responses := s.pending_responses ++
            [⟨now + ping_timeout, request.target,
              (process_request now ping_timeout host_key cluster_key network_mtu encLen request s).2.state_changes⟩] }) ∧
    (request.request ≠ Request.Ping →
      (process_request now ping_timeout host_key cluster_key network_mtu encLen request s).1 = s) := by
  refine ⟨?_, fun h => ?_, fun h => ?_⟩
  · simp only [process_request]
    split <;> rfl
  · simp [process_request, h]
  · have hb : (request.request == Request.Ping) = false := by
      simpa using h
    simp [process_request, hb]

/-- A Ping request toward address 4. -/
def c7_req : TargetedRequest := ⟨Request.Ping, 4⟩

/-- An empty reactor state for the pending-entry witness. -/
def c7_state : ReactorState := ⟨⟨0, []⟩, [], [], [], []⟩

/-- A concrete encoding-length function for the pending-entry witness. -/
def c7_encLen (m : ArtilleryMessage) : Nat := 10 + 5 * m.state_changes.length

/-- Witness for C7: a concrete Ping appends its pending entry. -/
theorem process_request_pending_spec_witness :
    (process_request 100 7 1 [0] 50 c7_encLen c7_req c7_state).1 =
      { c7_state with pending_responses := c7_state.pending_responses ++
          [⟨100 + 7, c7_req.target,
            (process_request 100 7 1 [0] 50 c7_encLen c7_req c7_state).2.state_changes⟩] } :=
  (process_request_pending_spec 100 7 1 [0] 50 c7_encLen c7_req c7_state).2.1 rfl

/-- Helper: after `clear_wait_list`, the relays stored for the cleared
address are gone (the lookup also yields the empty list when the key
was absent). -/
theorem lookup_clear_wait_list (wait_list : List (Addr × List Addr)) (addr : Addr) :
    lookup_wait_list (clear_wait_list wait_list addr) addr = [] := by
  induction wait_list with
  | nil => rfl
  | cons p rest ih =>
    by_cases hp : p.1 = addr
    · simp [clear_wait_list, lookup_wait_list, hp]
    · have hb : (p.1 == addr) = false := by simpa using hp
      simp only [clear_wait_list, List.map_cons, hb, Bool.false_eq_true, if_false,
        lookup_wait_list, List.find?_cons, hb] at ih ⊢
      exact ih

/-- C8: when the member table reports a Suspect-to-Alive transition for
the acked address, `mark_node_alive` emits one `React(AckHost(member))`
per relay stored for that address, in stored order, empties the
address's wait list, enqueues the member's Alive change into the
outgoing digest, and publishes `MemberWentUp`. -/
theorem mark_node_alive_spec (src_addr : Addr) (s : ReactorState) (member : ArtilleryMember) (members' : ArtilleryMemberList) (h : s.members.mark_node_alive src_addr = some (member, members')) :
    mark_node_alive src_addr s =
      ({ s with members := members',
                wait_list := clear_wait_list s.wait_list src_addr,
                state_changes := enqueue_state_change s.state_changes [member] },
       [ArtilleryMemberEvent.MemberWentUp member],
       (lookup_wait_list s.wait_list src_addr).map (fun remote => ⟨Request.AckHost member, remote⟩))
    ∧ lookup_wait_list (mark_node_alive src_addr s).1.wait_list src_addr = [] := by
  constructor
  · simp [mark_node_alive, h]
  · simp [mark_node_alive, h, lookup_clear_wait_list]

/-- A Suspect member at address 7. -/
def c8_suspect : ArtilleryMember := ⟨2, some 7, 0, ArtilleryMemberState.Suspect⟩

/-- The same member promoted to Alive. -/
def c8_alive : ArtilleryMember := ⟨2, some 7, 0, ArtilleryMemberState.Alive⟩

/-- A state holding the Suspect member and two relays waiting on
address 7. -/
def c8_state : ReactorState := ⟨⟨0, [c8_suspect]⟩, [], [], [], [(7, [4, 5])]⟩

/-- The member table after the promotion. -/
def c8_members2 : ArtilleryMemberList := ⟨0, [c8_alive]⟩

/-- Witness for C8 at a concrete Suspect member with two waiting
relays. -/
theorem mark_node_alive_spec_witness :
    mark_node_alive 7 c8_state =
      ({ c8_state with
          members := c8_members2,
          wait_list := clear_wait_list c8_state.wait_list 7,
          state_changes := enqueue_state_change c8_state.state_changes [c8_alive] },
       [ArtilleryMemberEvent.MemberWentUp c8_alive],
       (lookup_wait_list c8_state.wait_list 7).map (fun remote => ⟨Request.AckHost c8_alive, remote⟩)) :=
  (mark_node_alive_spec 7 c8_state c8_alive c8_members2 (by decide)).1

/-- The local node (self) for the C9 counterexample. -/
def c9_self : ArtilleryMember := ⟨0, none, 0, ArtilleryMemberState.Alive⟩

/-- A peer currently known as Down. -/
def c9_down : ArtilleryMember := ⟨1, some 5, 0, ArtilleryMemberState.Down⟩

/-- A state whose table holds self and the Down peer. -/
def c9_state : ReactorState := ⟨⟨0, [c9_self, c9_down]⟩, [], [], [], []⟩

/-- A remote change asserting the Down peer Alive at a higher
incarnation. -/
def c9_change : ArtilleryStateChange :=
  ArtilleryStateChange.new ⟨1, some 5, 1, ArtilleryMemberState.Alive⟩

/-- C9 counterexample: a member whose table state was Down (not
Suspect) is overwritten to Alive by a higher-incarnation change, and
`apply_state_changes` publishes `MemberWentUp` for it — so
`MemberWentUp` is not published exactly on transitions into Alive from
Suspect. -/
theorem apply_state_changes_went_up_from_down :
    c9_down ∈ c9_state.members.entries ∧ c9_down.state = ArtilleryMemberState.Down ∧
    (apply_state_changes [c9_change] 5 c9_state).2 =
      [ArtilleryMemberEvent.MemberWentUp ⟨1, some 5, 1, ArtilleryMemberState.Alive⟩] := by
  decide

/-- C9 as amended: `apply_state_changes` publishes exactly one event
per member the table reports, in the order realized — `MemberJoined`
for each newly inserted member, then for each changed member the event
determined by its new state — and the determined event is
`MemberWentUp` exactly when the changed member's new state is Alive,
whatever its previous state was. -/
theorem apply_state_changes_events_spec (changes : List ArtilleryStateChange) (from_addr : Addr) (s : ReactorState) :
    (apply_state_changes changes from_addr s).2 =
      (s.members.apply_state_changes changes from_addr).2.1.map ArtilleryMemberEvent.MemberJoined ++
      (s.members.apply_state_changes changes from_addr).2.2.map determine_member_event ∧
    ∀ m : ArtilleryMember,
      determine_member_event m = ArtilleryMemberEvent.MemberWentUp m ↔ m.state = ArtilleryMemberState.Alive := by
  constructor
  · rfl
  · intro m
    cases hm : m.state <;> simp [determine_member_event, hm]

/-- An Alive member for the amended-C9 witness. -/
def c9w_member : ArtilleryMember := ⟨3, some 8, 0, ArtilleryMemberState.Alive⟩

/-- An empty reactor state for the amended-C9 witness. -/
def c9w_state : ReactorState := ⟨⟨0, []⟩, [], [], [], []⟩

/-- Witness for the amended C9: a changed member with new state Alive
determines a `MemberWentUp` event. -/
theorem apply_state_changes_events_spec_witness :
    determine_member_event c9w_member = ArtilleryMemberEvent.MemberWentUp c9w_member :=
  ((apply_state_changes_events_spec [] 0 c9w_state).2 c9w_member).mpr rfl

/-- An empty reactor state for the AckHost totality claim. -/
def c10_state : ReactorState := ⟨⟨0, []⟩, [], [], [], []⟩

/-- A matching-key AckHost record whose carried member has no remote
address. -/
def c10_bad_msg : ArtilleryMessage :=
  ⟨9, [0], Request.AckHost ⟨9, none, 0, ArtilleryMemberState.Alive⟩, []⟩

/-- C10: whenever the AckHost record's member carries a remote address,
`respond_to_message` is defined (the source's unwrap cannot fail); and
a well-formed matching-key AckHost record whose member lacks an address
does reach the failure (`none`, the unwrap panic). -/
theorem respond_ack_host_unwrap :
    (∀ (cluster_key : List Nat) (src_addr : Addr) (message : ArtilleryMessage) (s : ReactorState) (member : ArtilleryMember),
      message.request = Request.AckHost member → member.remote_host.isSome = true →
      (respond_to_message cluster_key src_addr message s).isSome = true) ∧
    respond_to_message [0] 3 c10_bad_msg c10_state = none := by
  constructor
  · intro cluster_key src_addr message s member hreq hsome
    rcases Option.isSome_iff_exists.mp hsome with ⟨a, ha⟩
    by_cases hk : message.cluster_key = cluster_key
    · simp [respond_to_message, hk, hreq, ha]
    · simp [respond_to_message, hk]
  · decide

/-- A matching-key AckHost record whose carried member has a remote
address. -/
def c10_good_msg : ArtilleryMessage :=
  ⟨9, [0], Request.AckHost ⟨9, some 4, 0, ArtilleryMemberState.Alive⟩, []⟩

/-- Witness for C10: the defined case at a concrete record. -/
theorem respond_ack_host_unwrap_witness :
    (respond_to_message [0] 3 c10_good_msg c10_state).isSome = true :=
  respond_ack_host_unwrap.1 [0] 3 c10_good_msg c10_state
    ⟨9, some 4, 0, ArtilleryMemberState.Alive⟩ rfl rfl
